import Mathlib

/-!
# Verification of the Backend_ repository against its specification

The repository ships two source files: `src/server.js` (Express app wiring)
and `src/routes/userRoutes.js` (the user router with Swagger documentation).
Those are embedded directly below.  The spatial index and the matching
service described by the specification have no implementation under `src/`
(only route stubs and the spec describe them), so they are modelled from the
specification text, as marked on each definition.
-/

namespace Backend

/-! ## The user router, embedded from `src/routes/userRoutes.js`

Each `router.<method>(path, handlers...)` registration line becomes one
`Route` value; the `responses:` section of the Swagger comment attached to a
registration becomes the `statuses` field. -/

/-- Handlers that appear in `src/routes/userRoutes.js`: the `authenticate`
middleware and the four `userController` handlers. -/
inductive Handler
  | authenticate
  | signup
  | login
  | updateProfile
  | getUserList
  deriving DecidableEq

/-- HTTP method of a route registration. -/
inductive Method
  | get
  | post
  deriving DecidableEq

/-- One `router.<method>(path, handlers...)` registration together with the
response status codes documented in its Swagger comment. -/
structure Route where
  method : Method
  path : String
  handlers : List Handler
  statuses : List Nat
  deriving DecidableEq

/-- Registration `router.post('/signup', userController.signup)` —
documented responses 201, 400, 500 (userRoutes.js lines 42-64). -/
def signupRoute : Route :=
  ⟨Method.post, "/signup", [Handler.signup], [201, 400, 500]⟩

/-- Registration `router.post('/login', userController.login)` —
documented responses 200, 401, 402, 500 (userRoutes.js lines 83-106; note
402 "invalid password" at line 101). -/
def loginRoute : Route :=
  ⟨Method.post, "/login", [Handler.login], [200, 401, 402, 500]⟩

/-- Registration `router.post('/update', authenticate,
userController.updateProfile)` — documented responses 200, 400, 401, 500
(userRoutes.js lines 146-160). -/
def updateRoute : Route :=
  ⟨Method.post, "/update", [Handler.authenticate, Handler.updateProfile],
    [200, 400, 401, 500]⟩

/-- Registration `router.get('/list', userController.getUserList)` —
documented responses 200, 500 (userRoutes.js lines 168-180). -/
def listRoute : Route :=
  ⟨Method.get, "/list", [Handler.getUserList], [200, 500]⟩

/-- The four registrations of `src/routes/userRoutes.js`, in source order. -/
def userRouter : List Route :=
  [signupRoute, loginRoute, updateRoute, listRoute]

/-- The error statuses documented for a route: those `≥ 400`. -/
def errorStatuses (rt : Route) : List Nat :=
  rt.statuses.filter (fun s => 400 ≤ s)

/-- The status-code set named by the specification for error responses. -/
def allowedErrorCodes : List Nat :=
  [400, 401, 403, 404, 409, 500]

/-- C1, counterexample: the login route is registered in the user router and
documents error status 402 ("invalid password"), which is not among the
specification's allowed error codes 400/401/403/404/409/500. -/
theorem c1_login_402_counterexample :
    loginRoute ∈ userRouter ∧ 402 ∈ errorStatuses loginRoute ∧
      402 ∉ allowedErrorCodes := by
  decide

/-- C1 (amended): every error status documented for a route of the user
router lies in the specification's set enlarged by 402, the code the login
route documents for an invalid password. -/
theorem c1_error_codes_amended :
    ∀ rt ∈ userRouter, ∀ s ∈ errorStatuses rt, s ∈ 402 :: allowedErrorCodes := by
  decide

/-- C1 witness: the amended theorem applied to the signup route and its
documented status 400. -/
theorem c1_error_codes_amended_witness :
    400 ∈ 402 :: allowedErrorCodes :=
  c1_error_codes_amended signupRoute (by decide) 400 (by decide)

/-- C10: in the user router the `authenticate` middleware appears on a
route's handler chain exactly when that route is `POST /update`; in
particular `GET /list` (the full user list), `POST /signup` and
`POST /login` carry no authentication middleware. -/
theorem c10_auth_guard_only_update :
    (∀ rt ∈ userRouter,
      (Handler.authenticate ∈ rt.handlers ↔
        (rt.method = Method.post ∧ rt.path = "/update"))) ∧
    Handler.authenticate ∉ listRoute.handlers ∧
    Handler.authenticate ∉ signupRoute.handlers ∧
    Handler.authenticate ∉ loginRoute.handlers := by
  decide

/-- C10 witness: the theorem applied to the list route: `GET /list` has no
authentication middleware. -/
theorem c10_auth_guard_only_update_witness :
    Handler.authenticate ∉ listRoute.handlers :=
  c10_auth_guard_only_update.2.1

/-! ## Spatial index

Modelled from the spec: the Spatial Index component (spec §4.1) has no
implementation under `src/` — only the route stubs and the specification
describe it.  The definitions below follow the specification's words. -/

/-- Modelled from the spec: a latitude/longitude pair attached to a user
(spec §3), with exact rational components. -/
structure Coordinate where
  latitude : ℚ
  longitude : ℚ
  deriving DecidableEq

/-- Modelled from the spec: a coordinate is valid when its latitude lies in
[-90, 90] and its longitude in [-180, 180] (spec §4.1). -/
def validCoordinate (c : Coordinate) : Prop :=
  -90 ≤ c.latitude ∧ c.latitude ≤ 90 ∧ -180 ≤ c.longitude ∧ c.longitude ≤ 180

instance : DecidablePred validCoordinate := fun c => by
  unfold validCoordinate
  infer_instance

/-- Modelled from the spec: the error outcomes of the spatial index
operations (spec §4.1). -/
inductive GeoError
  | InvalidCoordinate
  | InvalidRadius
  deriving DecidableEq

/-- Modelled from the spec: the spatial index state — each user's position,
keyed by user id (spec §4.1). -/
abbrev SpatialIndex := List (Nat × Coordinate)

/-- Modelled from the spec: `remove(userId)` deletes a user's position;
idempotent, removing an absent id is a no-op, and it cannot fail
(spec §4.1). -/
def Spatial.remove (u : Nat) (idx : SpatialIndex) : SpatialIndex :=
  idx.filter (fun e => decide (e.1 ≠ u))

/-- Modelled from the spec: `insert(userId, coordinate)` adds or updates a
user's position; its only error condition is an invalid coordinate, which
fails with `InvalidCoordinate` (spec §4.1). -/
def Spatial.insert (u : Nat) (c : Coordinate) (idx : SpatialIndex) :
    Except GeoError SpatialIndex :=
  if validCoordinate c then Except.ok ((u, c) :: Spatial.remove u idx)
  else Except.error GeoError.InvalidCoordinate

/-- The result order of a spatial query on (user id, distance) pairs:
ascending by distance, equal distances tie-broken by user id (spec §4.1). -/
def distOrder (a b : Nat × ℚ) : Prop :=
  a.2 < b.2 ∨ (a.2 = b.2 ∧ a.1 ≤ b.1)

instance : DecidableRel distOrder := fun a b => by
  unfold distOrder
  infer_instance

instance : IsTotal (Nat × ℚ) distOrder := ⟨by
  intro a b
  rcases lt_trichotomy a.2 b.2 with h | h | h
  · exact Or.inl (Or.inl h)
  · rcases le_total a.1 b.1 with h2 | h2
    · exact Or.inl (Or.inr ⟨h, h2⟩)
    · exact Or.inr (Or.inr ⟨h.symm, h2⟩)
  · exact Or.inr (Or.inl h)⟩

instance : IsTrans (Nat × ℚ) distOrder := ⟨by
  intro a b c hab hbc
  rcases hab with h1 | ⟨h1, h1'⟩ <;> rcases hbc with h2 | ⟨h2, h2'⟩
  · exact Or.inl (h1.trans h2)
  · exact Or.inl (h2 ▸ h1)
  · exact Or.inl (h1 ▸ h2)
  · exact Or.inr ⟨h1.trans h2, le_trans h1' h2'⟩⟩

instance : IsAntisymm (Nat × ℚ) distOrder := ⟨by
  intro a b hab hba
  rcases hab with h1 | ⟨h1, h1'⟩ <;> rcases hba with h2 | ⟨h2, h2'⟩
  · exact absurd (h1.trans h2) (lt_irrefl _)
  · exact absurd h1 (h2 ▸ lt_irrefl _)
  · exact absurd h2 (h1 ▸ lt_irrefl _)
  · exact Prod.ext (le_antisymm h1' h2') h1⟩

/-- The candidate list of a query: each indexed user paired with its
distance from the center, keeping those within the radius. -/
def Spatial.candidates (dist : Coordinate → Coordinate → ℚ)
    (center : Coordinate) (radius : ℚ) (idx : SpatialIndex) :
    List (Nat × ℚ) :=
  (idx.map (fun e => (e.1, dist center e.2))).filter
    (fun p => decide (p.2 ≤ radius))

/-- Modelled from the spec: `query(center, radiusMeters, limit)` returns up
to `limit` users ordered by great-circle distance from `center`, ascending,
ties broken by user id; fails with `InvalidRadius` if the radius is ≤ 0
(spec §4.1).  The great-circle distance function is the parameter `dist`. -/
def Spatial.query (dist : Coordinate → Coordinate → ℚ) (center : Coordinate)
    (radius : ℚ) (limit : Nat) (idx : SpatialIndex) :
    Except GeoError (List (Nat × ℚ)) :=
  if radius ≤ 0 then Except.error GeoError.InvalidRadius
  else Except.ok
    ((List.insertionSort distOrder
        (Spatial.candidates dist center radius idx)).take limit)

/-- Modelled from the spec: the state kept by a caller that runs `insert` —
on a validation error the operation mutates nothing, so the caller keeps the
prior index (spec §7, fail fast / no partial state). -/
def applyInsert (u : Nat) (c : Coordinate) (idx : SpatialIndex) :
    SpatialIndex :=
  match Spatial.insert u c idx with
  | Except.ok idx2 => idx2
  | Except.error _ => idx

/-- Weakening: the query order implies non-decreasing distances. -/
theorem distOrder_le_snd {a b : Nat × ℚ} (h : distOrder a b) : a.2 ≤ b.2 := by
  rcases h with h | ⟨h, _⟩
  · exact le_of_lt h
  · exact le_of_eq h

/-- C2: a query with positive radius succeeds; the result holds at most
`limit` entries; every returned entry carries the distance from the center
of a coordinate stored in the index under that user id, and that distance
is within the radius; the result is sorted ascending by distance with ties
broken by user id, so no two consecutive results have out-of-order
distances. -/
theorem c2_query_ordered (dist : Coordinate → Coordinate → ℚ)
    (center : Coordinate) (r : ℚ) (limit : Nat) (idx : SpatialIndex)
    (h : 0 < r) :
    ∃ res, Spatial.query dist center r limit idx = Except.ok res ∧
      res.length ≤ limit ∧
      (∀ p ∈ res, p.2 ≤ r ∧ ∃ c, (p.1, c) ∈ idx ∧ p.2 = dist center c) ∧
      List.Sorted distOrder res ∧
      List.Chain' (fun a b : Nat × ℚ => a.2 ≤ b.2) res := by
  refine ⟨(List.insertionSort distOrder
      (Spatial.candidates dist center r idx)).take limit, ?_, ?_, ?_, ?_, ?_⟩
  · rw [Spatial.query, if_neg (not_le.mpr h)]
  · rw [List.length_take]
    exact Nat.min_le_left _ _
  · intro p hp
    have hp2 : p ∈ List.insertionSort distOrder
        (Spatial.candidates dist center r idx) := List.take_subset _ _ hp
    have hp3 : p ∈ Spatial.candidates dist center r idx :=
      (List.mem_insertionSort distOrder).mp hp2
    rw [Spatial.candidates, List.mem_filter] at hp3
    obtain ⟨hmem, hle⟩ := hp3
    obtain ⟨e, hidx, hfe⟩ := List.mem_map.mp hmem
    refine ⟨of_decide_eq_true hle, e.2, ?_, ?_⟩
    · have : (p.1, e.2) = e := by
        rw [← hfe]
      rw [this]
      exact hidx
    · rw [← hfe]
  · exact List.Pairwise.sublist (List.take_sublist _ _)
      (List.sorted_insertionSort distOrder _)
  · have hsorted : List.Pairwise distOrder
        ((List.insertionSort distOrder
          (Spatial.candidates dist center r idx)).take limit) :=
      List.Pairwise.sublist (List.take_sublist _ _)
        (List.sorted_insertionSort distOrder _)
    exact List.Pairwise.chain'
      (List.Pairwise.imp (fun hab => distOrder_le_snd hab) hsorted)

/-- C2 witness: the query theorem applied to a one-user index with a
constant-zero distance function, radius 1 and limit 2. -/
theorem c2_query_ordered_witness :
    (0 : ℚ) < 1 ∧
      ∃ res, Spatial.query (fun _ _ => 0) ⟨0, 0⟩ 1 2 [(1, ⟨0, 0⟩)] =
          Except.ok res ∧
        res.length ≤ 2 ∧
        (∀ p ∈ res, p.2 ≤ 1 ∧
          ∃ c, (p.1, c) ∈ ([(1, ⟨0, 0⟩)] : SpatialIndex) ∧
            p.2 = (fun _ _ => (0 : ℚ)) (⟨0, 0⟩ : Coordinate) c) ∧
        List.Sorted distOrder res ∧
        List.Chain' (fun a b : Nat × ℚ => a.2 ≤ b.2) res :=
  ⟨by norm_num,
    c2_query_ordered (fun _ _ => 0) ⟨0, 0⟩ 1 2 [(1, ⟨0, 0⟩)] (by norm_num)⟩

/-- Sorting commutes with filtering: both sides are sorted permutations of
the same list, and `distOrder` is antisymmetric. -/
theorem insertionSort_filter_comm (p : Nat × ℚ → Bool) (l : List (Nat × ℚ)) :
    List.insertionSort distOrder (l.filter p) =
      (List.insertionSort distOrder l).filter p := by
  exact @List.eq_of_perm_of_sorted _ distOrder _ _ _
    ((List.perm_insertionSort distOrder _).trans
      (List.Perm.filter p (List.perm_insertionSort distOrder l)).symm)
    (List.sorted_insertionSort distOrder _)
    (List.Sorted.filter p (List.sorted_insertionSort distOrder l))

/-- On a list sorted by `distOrder`, keeping the entries with distance below
a bound keeps a prefix. -/
theorem sorted_filter_le_eq_take (r1 : ℚ) :
    ∀ s : List (Nat × ℚ), List.Sorted distOrder s →
      ∃ k, s.filter (fun p => decide (p.2 ≤ r1)) = s.take k := by
  intro s hs
  induction s with
  | nil => exact ⟨0, rfl⟩
  | cons x t ih =>
    rw [List.sorted_cons] at hs
    obtain ⟨hx, ht⟩ := hs
    by_cases hpx : x.2 ≤ r1
    · obtain ⟨k, hk⟩ := ih ht
      refine ⟨k + 1, ?_⟩
      rw [List.filter_cons_of_pos (by simpa using hpx), hk, List.take_succ_cons]
    · refine ⟨0, ?_⟩
      rw [List.take_zero]
      apply List.filter_eq_nil_iff.mpr
      intro a ha
      simp only [decide_eq_true_eq]
      rcases List.mem_cons.mp ha with rfl | hat
      · exact hpx
      · intro ha2
        exact hpx (le_trans (distOrder_le_snd (hx a hat)) ha2)

/-- C3: enlarging the radius can only enlarge the result set — with the
same center and limit, every entry returned for radius `r1` is also
returned for any larger radius `r2`. -/
theorem c3_query_radius_monotone (dist : Coordinate → Coordinate → ℚ)
    (center : Coordinate) (limit : Nat) (idx : SpatialIndex) (r1 r2 : ℚ)
    (res1 res2 : List (Nat × ℚ)) (h1 : 0 < r1) (h12 : r1 < r2)
    (e1 : Spatial.query dist center r1 limit idx = Except.ok res1)
    (e2 : Spatial.query dist center r2 limit idx = Except.ok res2) :
    res1 ⊆ res2 := by
  rw [Spatial.query, if_neg (not_le.mpr h1), Except.ok.injEq] at e1
  rw [Spatial.query, if_neg (not_le.mpr (lt_trans h1 h12)),
    Except.ok.injEq] at e2
  have hcand : Spatial.candidates dist center r1 idx =
      (Spatial.candidates dist center r2 idx).filter
        (fun p => decide (p.2 ≤ r1)) := by
    rw [Spatial.candidates, Spatial.candidates, List.filter_filter]
    refine (List.filter_congr ?_).symm
    intro a _
    by_cases ha : a.2 ≤ r1
    · simp [ha, le_trans ha (le_of_lt h12)]
    · simp [ha]
  obtain ⟨k, hk⟩ := sorted_filter_le_eq_take r1
    (List.insertionSort distOrder (Spatial.candidates dist center r2 idx))
    (List.sorted_insertionSort distOrder _)
  have key : res1 = List.take k (List.take limit
      (List.insertionSort distOrder
        (Spatial.candidates dist center r2 idx))) := by
    rw [← e1, hcand, insertionSort_filter_comm, hk, List.take_take,
      List.take_take, inf_comm]
  rw [key, ← e2]
  exact List.take_subset _ _

/-- C3 witness: the monotonicity theorem applied to a one-user index with
radii 1 < 2. -/
theorem c3_query_radius_monotone_witness :
    (0 : ℚ) < 1 ∧ (1 : ℚ) < 2 ∧
      ([(1, 0)] : List (Nat × ℚ)) ⊆ [(1, 0)] :=
  ⟨by norm_num, by norm_num,
    c3_query_radius_monotone (fun _ _ => 0) ⟨0, 0⟩ 5 [(1, ⟨0, 0⟩)] 1 2
      [(1, 0)] [(1, 0)] (by norm_num) (by norm_num) rfl rfl⟩

/-- The position the index stores for a user: the first entry with that
user id, if any. -/
def Spatial.position (u : Nat) : SpatialIndex → Option Coordinate
  | [] => none
  | e :: t => if e.1 = u then some e.2 else Spatial.position u t

/-- Removing user `u` does not affect the stored position of any other
user. -/
theorem position_remove_ne (v u : Nat) (idx : SpatialIndex) (h : v ≠ u) :
    Spatial.position v (Spatial.remove u idx) = Spatial.position v idx := by
  induction idx with
  | nil => rfl
  | cons e t ih =>
    rw [Spatial.remove] at ih ⊢
    by_cases he : e.1 = u
    · rw [List.filter_cons_of_neg (by simp [he]), ih, Spatial.position,
        if_neg (by rw [he]; exact fun hv => h hv.symm)]
    · rw [List.filter_cons_of_pos (by simp [he]), Spatial.position,
        Spatial.position]
      by_cases hev : e.1 = v
      · rw [if_pos hev, if_pos hev]
      · rw [if_neg hev, if_neg hev, ih]

/-- C4: on a valid coordinate, `insert` succeeds; in the new index the
inserted user's stored position is the new coordinate while every other
user's position is unchanged; and a query whose radius covers the inserted
point (with a limit large enough not to truncate) returns the inserted user
with its distance (read-after-write consistency). -/
theorem c4_insert_then_query (dist : Coordinate → Coordinate → ℚ)
    (center c : Coordinate) (u : Nat) (r : ℚ) (limit : Nat)
    (idx : SpatialIndex) (hc : validCoordinate c) (hr : 0 < r)
    (hcover : dist center c ≤ r) (hlim : idx.length < limit) :
    ∃ idx2, Spatial.insert u c idx = Except.ok idx2 ∧
      Spatial.position u idx2 = some c ∧
      (∀ v, v ≠ u → Spatial.position v idx2 = Spatial.position v idx) ∧
      ∃ res, Spatial.query dist center r limit idx2 = Except.ok res ∧
        (u, dist center c) ∈ res := by
  refine ⟨(u, c) :: Spatial.remove u idx, ?_, ?_, ?_, ?_⟩
  · rw [Spatial.insert, if_pos hc]
  · rw [Spatial.position, if_pos rfl]
  · intro v hv
    rw [Spatial.position, if_neg (fun huv => hv huv.symm)]
    exact position_remove_ne v u idx hv
  · have hlen : (Spatial.candidates dist center r
        ((u, c) :: Spatial.remove u idx)).length ≤ limit := by
      refine le_trans (le_trans (List.length_filter_le _ _) ?_) hlim
      rw [List.length_map, List.length_cons, Nat.succ_le_iff]
      exact Nat.lt_of_le_of_lt (List.length_filter_le _ _) (Nat.lt_succ_self _)
    refine ⟨(List.insertionSort distOrder (Spatial.candidates dist center r
      ((u, c) :: Spatial.remove u idx))).take limit, ?_, ?_⟩
    · rw [Spatial.query, if_neg (not_le.mpr hr)]
    · rw [List.take_of_length_le (by rw [List.length_insertionSort]; exact hlen),
        List.mem_insertionSort, Spatial.candidates, List.mem_filter]
      constructor
      · exact List.mem_map.mpr ⟨(u, c), List.mem_cons_self _ _, rfl⟩
      · simpa using hcover

/-- C4 witness: inserting user 7 at a valid coordinate into the empty index
and querying with a covering radius returns user 7. -/
theorem c4_insert_then_query_witness :
    validCoordinate ⟨1, 1⟩ ∧ (0 : ℚ) < 1 ∧
      (fun _ _ => (0 : ℚ)) (⟨0, 0⟩ : Coordinate) (⟨1, 1⟩ : Coordinate) ≤ 1 ∧
      ([] : SpatialIndex).length < 1 ∧
      (∃ idx2, Spatial.insert 7 ⟨1, 1⟩ [] = Except.ok idx2 ∧
        Spatial.position 7 idx2 = some ⟨1, 1⟩ ∧
        (∀ v, v ≠ 7 → Spatial.position v idx2 = Spatial.position v []) ∧
        ∃ res, Spatial.query (fun _ _ => 0) ⟨0, 0⟩ 1 1 idx2 =
            Except.ok res ∧
          (7, (fun _ _ => (0 : ℚ)) (⟨0, 0⟩ : Coordinate)
            (⟨1, 1⟩ : Coordinate)) ∈ res) :=
  ⟨by decide, by norm_num, by norm_num, by decide,
    c4_insert_then_query (fun _ _ => 0) ⟨0, 0⟩ ⟨1, 1⟩ 7 1 1 []
      (by decide) (by norm_num) (by norm_num) (by decide)⟩

/-- C5: `remove` is idempotent; removing an id the index does not store
leaves the index unchanged (the operation is total, so it cannot fail); and
no query on the index after `remove u` — for any distance function, center,
radius and limit — returns user `u`. -/
theorem c5_remove_idempotent_query (u : Nat) (idx : SpatialIndex) :
    Spatial.remove u (Spatial.remove u idx) = Spatial.remove u idx ∧
    (Spatial.position u idx = none → Spatial.remove u idx = idx) ∧
    (∀ dist center r limit res,
      Spatial.query dist center r limit (Spatial.remove u idx) =
        Except.ok res → ∀ p ∈ res, p.1 ≠ u) := by
  refine ⟨?_, ?_, ?_⟩
  · rw [Spatial.remove, Spatial.remove, List.filter_filter]
    apply List.filter_congr
    intro a _
    rw [Bool.and_self]
  · induction idx with
    | nil => exact fun _ => rfl
    | cons e t ih =>
      intro hnone
      rw [Spatial.position] at hnone
      by_cases he : e.1 = u
      · rw [if_pos he] at hnone
        exact absurd hnone (by simp)
      · rw [if_neg he] at hnone
        rw [Spatial.remove, List.filter_cons_of_pos (by simp [he])]
        rw [Spatial.remove] at ih
        rw [ih hnone]
  · intro dist center r limit res hq p hp
    rw [Spatial.query] at hq
    by_cases hr : r ≤ 0
    · rw [if_pos hr] at hq
      exact absurd hq (by simp)
    · rw [if_neg hr, Except.ok.injEq] at hq
      rw [← hq] at hp
      have hp3 := (List.mem_insertionSort distOrder).mp
        (List.take_subset _ _ hp)
      rw [Spatial.candidates, List.mem_filter] at hp3
      obtain ⟨e, hidx, hfe⟩ := List.mem_map.mp hp3.1
      rw [Spatial.remove, List.mem_filter] at hidx
      rw [← hfe]
      exact of_decide_eq_true hidx.2

/-- C5 witness: removing user 1 from an index that does not store user 1 is
a no-op. -/
theorem c5_remove_idempotent_query_witness :
    Spatial.remove 1 [(2, ⟨0, 0⟩)] = [(2, ⟨0, 0⟩)] :=
  (c5_remove_idempotent_query 1 [(2, ⟨0, 0⟩)]).2.1 rfl

/-- Invalid coordinates are exactly the out-of-range latitudes or
longitudes of the specification. -/
theorem not_validCoordinate_iff (c : Coordinate) :
    ¬ validCoordinate c ↔
      (c.latitude < -90 ∨ 90 < c.latitude ∨
        c.longitude < -180 ∨ 180 < c.longitude) := by
  rw [validCoordinate, not_and_or, not_and_or, not_and_or, not_le, not_le,
    not_le, not_le]

/-- C9: validation is fail-fast and exhaustive — `insert` fails with
`InvalidCoordinate` exactly when the latitude is outside [-90, 90] or the
longitude is outside [-180, 180] and has no other error; `query` fails with
`InvalidRadius` exactly when the radius is ≤ 0 and has no other error; and
a caller running `insert` on an invalid coordinate keeps its index
unchanged (no partial mutation). -/
theorem c9_validation_fail_fast (dist : Coordinate → Coordinate → ℚ)
    (center c : Coordinate) (u : Nat) (r : ℚ) (limit : Nat)
    (idx : SpatialIndex) :
    (Spatial.insert u c idx = Except.error GeoError.InvalidCoordinate ↔
      (c.latitude < -90 ∨ 90 < c.latitude ∨
        c.longitude < -180 ∨ 180 < c.longitude)) ∧
    (∀ e, Spatial.insert u c idx = Except.error e →
      e = GeoError.InvalidCoordinate) ∧
    (Spatial.query dist center r limit idx =
        Except.error GeoError.InvalidRadius ↔ r ≤ 0) ∧
    (∀ e, Spatial.query dist center r limit idx = Except.error e →
      e = GeoError.InvalidRadius) ∧
    (¬ validCoordinate c → applyInsert u c idx = idx) := by
  refine ⟨?_, ?_, ?_, ?_, ?_⟩
  · rw [← not_validCoordinate_iff, Spatial.insert]
    by_cases hv : validCoordinate c
    · simp [hv]
    · simp [hv]
  · intro e he
    rw [Spatial.insert] at he
    by_cases hv : validCoordinate c
    · rw [if_pos hv] at he
      exact absurd he (by simp)
    · rw [if_neg hv] at he
      exact (Except.error.injEq _ _ ▸ he).symm
  · rw [Spatial.query]
    by_cases hr : r ≤ 0
    · simp [hr]
    · simp [hr]
  · intro e he
    rw [Spatial.query] at he
    by_cases hr : r ≤ 0
    · rw [if_pos hr] at he
      exact (Except.error.injEq _ _ ▸ he).symm
    · rw [if_neg hr] at he
      exact absurd he (by simp)
  · intro hv
    simp [applyInsert, Spatial.insert, hv]

/-- C9 witness: inserting at latitude 100 (out of range) fails and leaves
the caller's index unchanged. -/
theorem c9_validation_fail_fast_witness :
    applyInsert 0 ⟨100, 0⟩ [] = [] :=
  (c9_validation_fail_fast (fun _ _ => 0) ⟨0, 0⟩ ⟨100, 0⟩ 0 1 1
    []).2.2.2.2 (by decide)

/-! ## Matching service

Modelled from the spec: the Matching Service (spec §4.3) has no
implementation under `src/` — only the `/matchings` route stub referenced by
`src/server.js` and the specification describe it. -/

/-- Modelled from the spec: lifecycle states of a match request, with the
state machine Pending → Accepted | Rejected and the last two terminal
(spec §4.3). -/
inductive MatchState
  | Pending
  | Accepted
  | Rejected
  deriving DecidableEq

/-- Modelled from the spec: a stored match request — its id, proposer,
recipient and lifecycle state (spec §4.3). -/
structure MatchRequest where
  id : Nat
  fromUser : Nat
  toUser : Nat
  state : MatchState
  deriving DecidableEq

/-- Modelled from the spec: error outcomes of the matching service; in the
error taxonomy of spec §7, `DuplicateRequest` and `AlreadyResolved` are the
Conflict errors. -/
inductive MatchError
  | SelfMatch
  | DuplicateRequest
  | NotFound
  | NotAuthorized
  | AlreadyResolved
  deriving DecidableEq

/-- Modelled from the spec: the matching service state — the stored match
requests and a fresh id for the next one. -/
structure MatchStore where
  requests : List MatchRequest
  nextId : Nat
  deriving DecidableEq

/-- A stored request connects the unordered pair {a, b} when it links them
in either direction. -/
def samePair (m : MatchRequest) (a b : Nat) : Bool :=
  (m.fromUser == a && m.toUser == b) || (m.fromUser == b && m.toUser == a)

/-- Modelled from the spec: `proposeMatch(fromUserId, toUserId)` creates a
pending match request; fails with `SelfMatch` on a self-proposal and with
`DuplicateRequest` when a request between the same pair already exists in
either direction (spec §4.3). -/
def proposeMatch (s : MatchStore) (a b : Nat) :
    Except MatchError MatchStore :=
  if a = b then Except.error MatchError.SelfMatch
  else if s.requests.any (fun m => samePair m a b) then
    Except.error MatchError.DuplicateRequest
  else Except.ok ⟨s.requests ++ [⟨s.nextId, a, b, MatchState.Pending⟩],
    s.nextId + 1⟩

/-- The per-request update a response applies: the request with the
responded id moves to Accepted or Rejected, every other request is kept. -/
def resolveUpd (matchId : Nat) (accept : Bool) (m : MatchRequest) :
    MatchRequest :=
  if m.id == matchId then
    ⟨m.id, m.fromUser, m.toUser,
      if accept then MatchState.Accepted else MatchState.Rejected⟩
  else m

/-- Modelled from the spec: `respondToMatch(matchId, userId, accept)`
transitions a pending match to Accepted or Rejected; fails with
`NotAuthorized` when the caller is not the recipient and with
`AlreadyResolved` when the match is no longer pending, the checks applied
in the order the specification lists them; an unknown match id fails with
`NotFound` (spec §4.3 and §7). -/
def respondToMatch (s : MatchStore) (matchId userId : Nat)
    (accept : Bool) : Except MatchError MatchStore :=
  match s.requests.find? (fun m => m.id == matchId) with
  | none => Except.error MatchError.NotFound
  | some m =>
    if userId ≠ m.toUser then Except.error MatchError.NotAuthorized
    else if m.state ≠ MatchState.Pending then
      Except.error MatchError.AlreadyResolved
    else Except.ok ⟨s.requests.map (resolveUpd matchId accept), s.nextId⟩

/-- Modelled from the spec: the state kept by a caller that runs
`respondToMatch` — on an error the operation mutates nothing, so the caller
keeps the prior store. -/
def applyRespond (s : MatchStore) (matchId userId : Nat)
    (accept : Bool) : MatchStore :=
  match respondToMatch s matchId userId accept with
  | Except.ok s2 => s2
  | Except.error _ => s

/-- A well-formed store assigns distinct ids to its stored requests. -/
def MatchStore.WF (s : MatchStore) : Prop :=
  (s.requests.map MatchRequest.id).Nodup

/-- The response update never changes a request's id. -/
theorem resolveUpd_id (matchId : Nat) (accept : Bool) (m : MatchRequest) :
    (resolveUpd matchId accept m).id = m.id := by
  rw [resolveUpd]
  by_cases h : m.id == matchId
  · rw [if_pos h]
  · rw [if_neg h]

/-- Searching by id commutes with the response update, because the update
preserves ids. -/
theorem find?_map_resolveUpd (matchId mid2 : Nat) (accept : Bool)
    (l : List MatchRequest) :
    (l.map (resolveUpd matchId accept)).find? (fun m => m.id == mid2) =
      (l.find? (fun m => m.id == mid2)).map (resolveUpd matchId accept) := by
  induction l with
  | nil => rfl
  | cons x t ih =>
    rw [List.map_cons]
    by_cases hx : (x.id == mid2) = true
    · rw [List.find?_cons_of_pos _ (by rw [resolveUpd_id]; exact hx),
        @List.find?_cons_of_pos _ (fun m => m.id == mid2) x t hx,
        Option.map_some']
    · rw [List.find?_cons_of_neg _ (by rw [resolveUpd_id]; exact hx),
        @List.find?_cons_of_neg _ (fun m => m.id == mid2) x t hx, ih]

/-- Unfolding `respondToMatch` once the stored request is in view. -/
theorem respond_body_eq (s : MatchStore) (mid uid : Nat) (acc : Bool)
    (m : MatchRequest)
    (hfind : s.requests.find? (fun m2 => m2.id == mid) = some m) :
    respondToMatch s mid uid acc =
      (if uid ≠ m.toUser then Except.error MatchError.NotAuthorized
       else if m.state ≠ MatchState.Pending then
         Except.error MatchError.AlreadyResolved
       else Except.ok ⟨s.requests.map (resolveUpd mid acc), s.nextId⟩) := by
  rw [respondToMatch, hfind]

/-- Inversion of a successful response: the request was found, the caller
was its recipient, it was pending, and the store got the resolved update. -/
theorem respond_ok_inv {s : MatchStore} {mid uid : Nat} {acc : Bool}
    {s2 : MatchStore} (h : respondToMatch s mid uid acc = Except.ok s2) :
    ∃ m0, s.requests.find? (fun m => m.id == mid) = some m0 ∧
      uid = m0.toUser ∧ m0.state = MatchState.Pending ∧
      s2 = ⟨s.requests.map (resolveUpd mid acc), s.nextId⟩ := by
  cases hf : s.requests.find? (fun m => m.id == mid) with
  | none =>
    have hbody : respondToMatch s mid uid acc =
        Except.error MatchError.NotFound := by
      rw [respondToMatch, hf]
    rw [hbody] at h
    exact absurd h (by simp)
  | some m0 =>
    have hbody : respondToMatch s mid uid acc =
        (if uid ≠ m0.toUser then Except.error MatchError.NotAuthorized
         else if m0.state ≠ MatchState.Pending then
           Except.error MatchError.AlreadyResolved
         else Except.ok
           ⟨s.requests.map (resolveUpd mid acc), s.nextId⟩) := by
      rw [respondToMatch, hf]
    rw [hbody] at h
    by_cases h1 : uid ≠ m0.toUser
    · rw [if_pos h1] at h
      exact absurd h (by simp)
    · rw [if_neg h1] at h
      by_cases h2 : m0.state ≠ MatchState.Pending
      · rw [if_pos h2] at h
        exact absurd h (by simp)
      · rw [if_neg h2, Except.ok.injEq] at h
        exact ⟨m0, rfl, not_ne_iff.mp h1, not_ne_iff.mp h2, h.symm⟩

/-- C6: under distinct request ids, a request that has left Pending is
never changed by any further operation — both a successful proposal and a
successful response keep it, unchanged, in the store — and responding a
second time to an already-responded match fails with `AlreadyResolved` (a
Conflict error) and leaves the caller's store unchanged. -/
theorem c6_match_terminal (s : MatchStore) :
    (MatchStore.WF s → ∀ m ∈ s.requests, m.state ≠ MatchState.Pending →
      (∀ a b s2, proposeMatch s a b = Except.ok s2 → m ∈ s2.requests) ∧
      (∀ mid uid acc s2, respondToMatch s mid uid acc = Except.ok s2 →
        m ∈ s2.requests)) ∧
    (∀ mid uid acc acc2 s2, respondToMatch s mid uid acc = Except.ok s2 →
      respondToMatch s2 mid uid acc2 =
        Except.error MatchError.AlreadyResolved ∧
      applyRespond s2 mid uid acc2 = s2) := by
  constructor
  · intro hWF m hm hterm
    constructor
    · intro a b s2 hok
      rw [proposeMatch] at hok
      by_cases hab : a = b
      · rw [if_pos hab] at hok
        exact absurd hok (by simp)
      · rw [if_neg hab] at hok
        by_cases hdup : s.requests.any (fun m2 => samePair m2 a b) = true
        · rw [if_pos hdup] at hok
          exact absurd hok (by simp)
        · rw [if_neg hdup, Except.ok.injEq] at hok
          rw [← hok]
          exact List.mem_append_left _ hm
    · intro mid uid acc s2 hok
      obtain ⟨m0, hf, _, hpend, hs2⟩ := respond_ok_inv hok
      have hmne : (m.id == mid) = false := by
        rw [beq_eq_false_iff_ne]
        intro heq
        have hid0 : m0.id = mid := by
          have h2 := @List.find?_some _ (fun m2 => m2.id == mid) m0
            s.requests hf
          simpa using h2
        have hm0 : m0 ∈ s.requests := List.mem_of_find?_eq_some hf
        have : m = m0 := List.inj_on_of_nodup_map hWF hm hm0
          (by rw [heq, hid0])
        rw [this, hpend] at hterm
        exact hterm rfl
      rw [hs2]
      exact List.mem_map.mpr ⟨m, hm, by rw [resolveUpd, hmne]; rfl⟩
  · intro mid uid acc acc2 s2 hok
    obtain ⟨m0, hf, huid, hpend, hs2⟩ := respond_ok_inv hok
    subst hs2
    have hid0 : (m0.id == mid) = true :=
      @List.find?_some _ (fun m2 => m2.id == mid) m0 s.requests hf
    have hfind2 : (s.requests.map (resolveUpd mid acc)).find?
        (fun m2 => m2.id == mid) =
        some ⟨m0.id, m0.fromUser, m0.toUser,
          if acc then MatchState.Accepted else MatchState.Rejected⟩ := by
      rw [find?_map_resolveUpd, hf, Option.map_some', resolveUpd,
        if_pos hid0]
    have hstate : (if acc then MatchState.Accepted else MatchState.Rejected)
        ≠ MatchState.Pending := by
      cases acc <;> simp
    have herr : respondToMatch
        ⟨s.requests.map (resolveUpd mid acc), s.nextId⟩ mid uid acc2 =
        Except.error MatchError.AlreadyResolved := by
      rw [respond_body_eq ⟨s.requests.map (resolveUpd mid acc), s.nextId⟩
        mid uid acc2 _ hfind2]
      dsimp only
      rw [if_neg (fun hne => hne huid), if_pos hstate]
    refine ⟨herr, ?_⟩
    rw [applyRespond, herr]

/-- C6 witness: the second-response clause of the theorem applied to a
store holding the single pending request 0 from user 1 to user 2, first
accepted by its recipient 2 and then rejected again by 2. -/
theorem c6_match_terminal_witness :
    respondToMatch ⟨[⟨0, 1, 2, MatchState.Accepted⟩], 1⟩ 0 2 false =
        Except.error MatchError.AlreadyResolved ∧
      applyRespond ⟨[⟨0, 1, 2, MatchState.Accepted⟩], 1⟩ 0 2 false =
        ⟨[⟨0, 1, 2, MatchState.Accepted⟩], 1⟩ :=
  (c6_match_terminal ⟨[⟨0, 1, 2, MatchState.Pending⟩], 1⟩).2
    0 2 true false ⟨[⟨0, 1, 2, MatchState.Accepted⟩], 1⟩ rfl

/-- C7: `proposeMatch` fails with `SelfMatch` on a self-proposal; fails
with `DuplicateRequest` when a request between the same unordered pair
already exists in either direction; and a success appends exactly one new
pending request, after which proposing the same pair again, in either
direction, fails with `DuplicateRequest`. -/
theorem c7_propose_self_duplicate (s : MatchStore) (a b : Nat) :
    (a = b → proposeMatch s a b = Except.error MatchError.SelfMatch) ∧
    (a ≠ b → (∃ m ∈ s.requests, samePair m a b = true) →
      proposeMatch s a b = Except.error MatchError.DuplicateRequest) ∧
    (∀ s2, proposeMatch s a b = Except.ok s2 →
      s2.requests = s.requests ++ [⟨s.nextId, a, b, MatchState.Pending⟩] ∧
      proposeMatch s2 a b = Except.error MatchError.DuplicateRequest ∧
      proposeMatch s2 b a = Except.error MatchError.DuplicateRequest) := by
  refine ⟨?_, ?_, ?_⟩
  · intro hab
    rw [proposeMatch, if_pos hab]
  · intro hab hex
    rw [proposeMatch, if_neg hab, if_pos (List.any_eq_true.mpr hex)]
  · intro s2 hok
    rw [proposeMatch] at hok
    by_cases hab : a = b
    · rw [if_pos hab] at hok
      exact absurd hok (by simp)
    · rw [if_neg hab] at hok
      by_cases hdup : s.requests.any (fun m => samePair m a b) = true
      · rw [if_pos hdup] at hok
        exact absurd hok (by simp)
      · rw [if_neg hdup, Except.ok.injEq] at hok
        have hreq : s2.requests =
            s.requests ++ [⟨s.nextId, a, b, MatchState.Pending⟩] := by
          rw [← hok]
        have hmem : (⟨s.nextId, a, b, MatchState.Pending⟩ : MatchRequest) ∈
            s2.requests := by
          rw [hreq]
          exact List.mem_append_right _ (List.mem_singleton_self _)
        refine ⟨hreq, ?_, ?_⟩
        · have hany : s2.requests.any (fun m => samePair m a b) = true :=
            List.any_eq_true.mpr ⟨_, hmem, by simp [samePair]⟩
          rw [proposeMatch, if_neg hab, if_pos hany]
        · have hany : s2.requests.any (fun m => samePair m b a) = true :=
            List.any_eq_true.mpr ⟨_, hmem, by simp [samePair]⟩
          rw [proposeMatch, if_neg (fun h => hab h.symm), if_pos hany]

/-- C7 witness: a self-proposal by user 1 on the empty store fails with
`SelfMatch`. -/
theorem c7_propose_self_duplicate_witness :
    proposeMatch ⟨[], 0⟩ 1 1 = Except.error MatchError.SelfMatch :=
  (c7_propose_self_duplicate ⟨[], 0⟩ 1 1).1 rfl

/-- C8: with the request stored under `matchId` in view, `respondToMatch`
fails with `NotAuthorized` when the caller is not its recipient; fails with
`AlreadyResolved` when the caller is the recipient but the request is no
longer pending; and when the caller is the recipient of a pending request
it succeeds, storing the request as Accepted when `accept` is true and as
Rejected otherwise. -/
theorem c8_respond_auth_resolved (s : MatchStore) (mid uid : Nat)
    (acc : Bool) (m : MatchRequest)
    (hfind : s.requests.find? (fun m2 => m2.id == mid) = some m) :
    (uid ≠ m.toUser →
      respondToMatch s mid uid acc =
        Except.error MatchError.NotAuthorized) ∧
    (uid = m.toUser → m.state ≠ MatchState.Pending →
      respondToMatch s mid uid acc =
        Except.error MatchError.AlreadyResolved) ∧
    (uid = m.toUser → m.state = MatchState.Pending →
      respondToMatch s mid uid acc = Except.ok
          ⟨s.requests.map (resolveUpd mid acc), s.nextId⟩ ∧
      (s.requests.map (resolveUpd mid acc)).find?
          (fun m2 => m2.id == mid) =
        some ⟨m.id, m.fromUser, m.toUser,
          if acc then MatchState.Accepted else MatchState.Rejected⟩) := by
  have hbody : respondToMatch s mid uid acc =
      (if uid ≠ m.toUser then Except.error MatchError.NotAuthorized
       else if m.state ≠ MatchState.Pending then
         Except.error MatchError.AlreadyResolved
       else Except.ok
         ⟨s.requests.map (resolveUpd mid acc), s.nextId⟩) := by
    rw [respondToMatch, hfind]
  refine ⟨?_, ?_, ?_⟩
  · intro h
    rw [hbody, if_pos h]
  · intro h1 h2
    rw [hbody, if_neg (fun hne => hne h1), if_pos h2]
  · intro h1 h2
    refine ⟨?_, ?_⟩
    · rw [hbody, if_neg (fun hne => hne h1), if_neg (fun hne => hne h2)]
    · rw [find?_map_resolveUpd, hfind, Option.map_some', resolveUpd,
        if_pos (@List.find?_some _ (fun m2 => m2.id == mid) m
          s.requests hfind)]

/-- C8 witness: user 3, not the recipient of the stored pending request
from user 1 to user 2, fails to respond with `NotAuthorized`. -/
theorem c8_respond_auth_resolved_witness :
    respondToMatch ⟨[⟨0, 1, 2, MatchState.Pending⟩], 1⟩ 0 3 true =
      Except.error MatchError.NotAuthorized :=
  (c8_respond_auth_resolved ⟨[⟨0, 1, 2, MatchState.Pending⟩], 1⟩ 0 3 true
    ⟨0, 1, 2, MatchState.Pending⟩ rfl).1 (by decide)

end Backend
